import Mathlib

/- Verification of the gateway layer of "apocalypse-the-server", an HTTP/1.1
   front server written in JavaScript (server.js, tools.js).  The embedding
   models JavaScript strings as Lean `String`s (sequences of unicode scalar
   values), the numeric counters, sizes and millisecond timestamps as `Nat`,
   fallible JavaScript code (thrown exceptions) as `Except String` / `Option`
   values, and the per-client entry of the in-memory rate-limit map as an
   explicit value threaded through the calls.  All operational definitions are
   written with structural recursion so that concrete runs reduce inside the
   kernel. -/

namespace Apoc

/- ===== JavaScript string primitives, embedded over `List Char` ===== -/

/-- JavaScript `String.prototype.split` with a one-character separator,
on the character list of the string. -/
def splitChar (sep : Char) : List Char → List (List Char)
  | [] => [[]]
  | c :: rest =>
    let r := splitChar sep rest
    if c = sep then [] :: r
    else
      match r with
      | [] => [[c]]
      | g :: gs => (c :: g) :: gs

/-- JavaScript `String.prototype.split` with the two-character separator
`"\r\n"` (the only multi-character separator the source uses). -/
def splitCRLF : List Char → List (List Char)
  | [] => [[]]
  | '\r' :: '\n' :: rest => [] :: splitCRLF rest
  | c :: rest =>
    match splitCRLF rest with
    | [] => [[c]]
    | g :: gs => (c :: g) :: gs

/-- JavaScript `s.split(sep)` for the separators appearing in the source
(`"\r\n"`, `" "`, `"&"`, `"="`, `"-"`, `"/"`); other separator shapes are
never used by the embedded code. -/
def jsSplit (sep : String) (s : String) : List String :=
  match sep.data with
  | [c] => (splitChar c s.data).map (fun cs => String.mk cs)
  | ['\r', '\n'] => (splitCRLF s.data).map (fun cs => String.mk cs)
  | _ => [s]

/-- Does the first list start with the second one? -/
def startsWithL : List Char → List Char → Bool
  | _, [] => true
  | [], _ :: _ => false
  | c :: cs, d :: ds => c = d && startsWithL cs ds

/-- JavaScript `s.startsWith(pre)`. -/
def jsStartsWith (s pre : String) : Bool :=
  startsWithL s.data pre.data

/-- JavaScript `s.endsWith(suf)`. -/
def jsEndsWith (s suf : String) : Bool :=
  startsWithL s.data.reverse suf.data.reverse

/-- Does `sub` occur as a contiguous run inside the list? -/
def hasInfixL (sub : List Char) : List Char → Bool
  | [] => startsWithL [] sub
  | c :: rest => startsWithL (c :: rest) sub || hasInfixL sub rest

/-- JavaScript `s.includes(sub)` (also `error.message.includes(...)`). -/
def containsSubstr (s sub : String) : Bool :=
  hasInfixL sub.data s.data

/-- JavaScript `s.indexOf(ch)` over a character list, as an optional index
(`none` plays the role of `-1`). -/
def jsIndexOfC (c : Char) : List Char → Option Nat
  | [] => none
  | d :: rest => if d = c then some 0 else (jsIndexOfC c rest).map (· + 1)

/-- JavaScript `s.indexOf(ch)` for a single character. -/
def jsIndexOf (s : String) (c : Char) : Option Nat :=
  jsIndexOfC c s.data

/-- First `n` characters of a string (`s.substring(0, n)`). -/
def strTake (s : String) (n : Nat) : String :=
  String.mk (s.data.take n)

/-- Characters of a string from position `n` on (`s.substring(n)`). -/
def strDrop (s : String) (n : Nat) : String :=
  String.mk (s.data.drop n)

/-- JavaScript whitespace test used by `trim` (ASCII whitespace plus NBSP;
the embedded strings contain no other unicode space characters). -/
def isJsWs (c : Char) : Bool :=
  c.toNat = 9 || c.toNat = 10 || c.toNat = 11 || c.toNat = 12 ||
  c.toNat = 13 || c.toNat = 32 || c.toNat = 160

/-- JavaScript `s.trim()`. -/
def jsTrim (s : String) : String :=
  String.mk (((s.data.dropWhile isJsWs).reverse.dropWhile isJsWs).reverse)

/-- JavaScript `s.toLowerCase()` (ASCII case fold, which is all the source
relies on). -/
def jsToLower (s : String) : String :=
  String.mk (s.data.map Char.toLower)

/-- JavaScript `arr.join(sep)`. -/
def jsJoin (sep : String) : List String → String
  | [] => ""
  | x :: rest =>
    match rest with
    | [] => x
    | _ :: _ => x ++ sep ++ jsJoin sep rest

/-- Lowercase hexadecimal digit for a value below 16. -/
def hexDigit (n : Nat) : Char :=
  if n < 10 then Char.ofNat (48 + n) else Char.ofNat (87 + n)

/-- One character of `JSON.stringify` string escaping. -/
def jsonEscapeChar (c : Char) : List Char :=
  if c = '"' then ['\\', '"']
  else if c = '\\' then ['\\', '\\']
  else if c = '\n' then ['\\', 'n']
  else if c = '\r' then ['\\', 'r']
  else if c = '\t' then ['\\', 't']
  else if c.toNat = 8 then ['\\', 'b']
  else if c.toNat = 12 then ['\\', 'f']
  else if c.toNat < 32 then ['\\', 'u', '0', '0', hexDigit (c.toNat / 16), hexDigit (c.toNat % 16)]
  else [c]

/-- `JSON.stringify` of a string value: quoted and escaped. -/
def jsonQuote (s : String) : String :=
  "\"" ++ String.mk (s.data.flatMap jsonEscapeChar) ++ "\""

/-- Byte length of one character in UTF-8. -/
def utf8Size (c : Char) : Nat :=
  if c.toNat < 0x80 then 1
  else if c.toNat < 0x800 then 2
  else if c.toNat < 0x10000 then 3
  else 4

/-- `Buffer.byteLength(s, 'utf-8')`. -/
def utf8Length (s : String) : Nat :=
  s.data.foldl (fun n c => n + utf8Size c) 0

/- ===== decodeURIComponent ===== -/

/-- Numeric value of a hexadecimal digit character. -/
def hexVal (c : Char) : Option Nat :=
  if '0' ≤ c ∧ c ≤ '9' then some (c.toNat - 48)
  else if 'a' ≤ c ∧ c ≤ 'f' then some (c.toNat - 87)
  else if 'A' ≤ c ∧ c ≤ 'F' then some (c.toNat - 55)
  else none

/-- UTF-8 bytes of one character. -/
def utf8EncodeChar (c : Char) : List Nat :=
  let n := c.toNat
  if n < 0x80 then [n]
  else if n < 0x800 then [0xc0 + n / 64, 0x80 + n % 64]
  else if n < 0x10000 then [0xe0 + n / 4096, 0x80 + n / 64 % 64, 0x80 + n % 64]
  else [0xf0 + n / 262144, 0x80 + n / 4096 % 64, 0x80 + n / 64 % 64, 0x80 + n % 64]

/-- Byte stream of a percent-encoded string: each `%XX` contributes the byte
`XX`, every literal character contributes its UTF-8 bytes; `none` models the
`URIError` thrown on an incomplete or non-hexadecimal escape. -/
def pctBytes : List Char → Option (List Nat)
  | [] => some []
  | '%' :: c1 :: c2 :: rest =>
    match hexVal c1, hexVal c2, pctBytes rest with
    | some h1, some h2, some bs => some ((h1 * 16 + h2) :: bs)
    | _, _, _ => none
  | '%' :: _ => none
  | c :: rest =>
    match pctBytes rest with
    | some bs => some (utf8EncodeChar c ++ bs)
    | none => none

/-- Is the byte a UTF-8 continuation byte? -/
def isCont (b : Nat) : Bool :=
  0x80 ≤ b && b < 0xc0

/-- Strict UTF-8 decoding of a byte list (rejecting overlong encodings,
surrogates and out-of-range code points, as `decodeURIComponent` does). -/
def utf8Decode : List Nat → Option (List Char)
  | [] => some []
  | b :: rest =>
    if b < 0x80 then
      match utf8Decode rest with
      | some cs => some (Char.ofNat b :: cs)
      | none => none
    else if b < 0xc2 then none
    else if b < 0xe0 then
      match rest with
      | b1 :: rest2 =>
        if isCont b1 then
          match utf8Decode rest2 with
          | some cs => some (Char.ofNat ((b - 0xc0) * 64 + (b1 - 0x80)) :: cs)
          | none => none
        else none
      | [] => none
    else if b < 0xf0 then
      match rest with
      | b1 :: b2 :: rest3 =>
        if isCont b1 && isCont b2 then
          let n := (b - 0xe0) * 4096 + (b1 - 0x80) * 64 + (b2 - 0x80)
          if 0x800 ≤ n ∧ ¬(0xd800 ≤ n ∧ n ≤ 0xdfff) then
            match utf8Decode rest3 with
            | some cs => some (Char.ofNat n :: cs)
            | none => none
          else none
        else none
      | _ => none
    else if b < 0xf5 then
      match rest with
      | b1 :: b2 :: b3 :: rest4 =>
        if isCont b1 && isCont b2 && isCont b3 then
          let n := (b - 0xf0) * 262144 + (b1 - 0x80) * 4096 + (b2 - 0x80) * 64 + (b3 - 0x80)
          if 0x10000 ≤ n ∧ n ≤ 0x10ffff then
            match utf8Decode rest4 with
            | some cs => some (Char.ofNat n :: cs)
            | none => none
          else none
        else none
      | _ => none
    else none

/-- JavaScript `decodeURIComponent`; `none` models a thrown `URIError`. -/
def percentDecode (s : String) : Option String :=
  match pctBytes s.data with
  | some bs => (utf8Decode bs).map String.mk
  | none => none

/- ===== Rate limiter (server.js, checkRateLimit) ===== -/

/-- `RATE_LIMIT_WINDOW`: milliseconds in one fixed rate-limit window. -/
def RATE_LIMIT_WINDOW : Nat := 60000

/-- `RATE_LIMIT_MAX_REQUESTS`: maximal number of requests per window per IP. -/
def RATE_LIMIT_MAX_REQUESTS : Nat := 100

/-- One entry of `rateLimitMap`: `{ count, resetTime }`. -/
structure RateEntry where
  count : Nat
  resetTime : Nat
deriving DecidableEq

/-- `checkRateLimit(ip)` from server.js, with `Date.now()` and the map entry
stored for the calling identity made explicit: returns the boolean verdict
and the entry left in the map after the call. -/
def checkRateLimit (now : Nat) (clientData : Option RateEntry) : Bool × Option RateEntry :=
  match clientData with
  | none => (true, some ⟨1, now + RATE_LIMIT_WINDOW⟩)
  | some e =>
    if now > e.resetTime then (true, some ⟨1, now + RATE_LIMIT_WINDOW⟩)
    else if e.count ≥ RATE_LIMIT_MAX_REQUESTS then (false, some e)
    else (true, some ⟨e.count + 1, e.resetTime⟩)

/-- A sequence of `checkRateLimit` calls by one identity, at the given
timestamps: the list of verdicts and the final map entry. -/
def runCalls : List Nat → Option RateEntry → List Bool × Option RateEntry
  | [], st => ([], st)
  | t :: ts, st =>
    let r := checkRateLimit t st
    let rr := runCalls ts r.2
    (r.1 :: rr.1, rr.2)

theorem runCalls_append (xs ys : List Nat) (st : Option RateEntry) :
    runCalls (xs ++ ys) st =
      ((runCalls xs st).1 ++ (runCalls ys (runCalls xs st).2).1,
       (runCalls ys (runCalls xs st).2).2) := by
  induction xs generalizing st with
  | nil => simp [runCalls]
  | cons t ts ih => simp [runCalls, ih]

theorem runCalls_allowed_run (ts : List Nat) (c r : Nat)
    (hin : ∀ t ∈ ts, t ≤ r) (hcap : c + ts.length ≤ RATE_LIMIT_MAX_REQUESTS) :
    runCalls ts (some ⟨c, r⟩) = (List.replicate ts.length true, some ⟨c + ts.length, r⟩) := by
  induction ts generalizing c with
  | nil => simp [runCalls]
  | cons t ts ih =>
    have ht : t ≤ r := hin t (by simp)
    have hlt : c < RATE_LIMIT_MAX_REQUESTS := by
      simp only [List.length_cons] at hcap; omega
    have hstep : checkRateLimit t (some ⟨c, r⟩) = (true, some ⟨c + 1, r⟩) := by
      simp only [checkRateLimit]
      rw [if_neg (by omega), if_neg (by omega)]
    have htail := ih (c + 1) (fun x hx => hin x (by simp [hx]))
      (by simp only [List.length_cons] at hcap ⊢; omega)
    simp only [runCalls, hstep, htail, List.length_cons, List.replicate_succ]
    have heq : c + 1 + ts.length = c + (ts.length + 1) := by omega
    rw [heq]

theorem checkRateLimit_denied (t r : Nat) (ht : t ≤ r) :
    checkRateLimit t (some ⟨RATE_LIMIT_MAX_REQUESTS, r⟩) =
      (false, some ⟨RATE_LIMIT_MAX_REQUESTS, r⟩) := by
  simp only [checkRateLimit]
  rw [if_neg (by omega), if_pos (by omega)]

/-- C3: an identity making `RATE_LIMIT_MAX_REQUESTS + 1` calls inside one
window (the first one opening the window at time `t0`, all later ones at
times not past the stored reset time `t0 + RATE_LIMIT_WINDOW`) is allowed on
the first `RATE_LIMIT_MAX_REQUESTS` calls and denied on the last; and the
first call made strictly after a stored entry's reset time is allowed, with
the count reset to `1` and the reset time advanced to
`now + RATE_LIMIT_WINDOW`. -/
theorem checkRateLimit_window_behaviour (t0 now : Nat) (ts : List Nat) (e : RateEntry)
    (hlen : ts.length = RATE_LIMIT_MAX_REQUESTS)
    (hin : ∀ t ∈ ts, t ≤ t0 + RATE_LIMIT_WINDOW)
    (hexp : now > e.resetTime) :
    (runCalls (t0 :: ts) none).1
      = List.replicate RATE_LIMIT_MAX_REQUESTS true ++ [false]
    ∧ checkRateLimit now (some e) = (true, some ⟨1, now + RATE_LIMIT_WINDOW⟩) := by
  constructor
  · have hne : ts ≠ [] := by
      intro h
      rw [h] at hlen
      simp [RATE_LIMIT_MAX_REQUESTS] at hlen
    obtain ⟨ts1, tl, htl⟩ : ∃ ts1 tl, ts = ts1 ++ [tl] :=
      ⟨ts.dropLast, ts.getLast hne, (List.dropLast_append_getLast hne).symm⟩
    subst htl
    have hlen1 : ts1.length + 1 = RATE_LIMIT_MAX_REQUESTS := by
      simpa using hlen
    have h0 : checkRateLimit t0 none = (true, some ⟨1, t0 + RATE_LIMIT_WINDOW⟩) := rfl
    have hrun := runCalls_allowed_run ts1 1 (t0 + RATE_LIMIT_WINDOW)
      (fun x hx => hin x (by simp [hx])) (by omega)
    have hlast := checkRateLimit_denied tl (t0 + RATE_LIMIT_WINDOW)
      (hin tl (by simp))
    have h1 : 1 + ts1.length = RATE_LIMIT_MAX_REQUESTS := by omega
    simp only [runCalls, h0, runCalls_append, hrun, h1, hlast]
    rw [← hlen1, List.replicate_succ]
    simp
  · simp only [checkRateLimit]
    rw [if_pos hexp]

/-- Witness for C3 at concrete inputs: 101 calls at time 0 starting from an
absent entry, and a first call at time 60001 against an entry whose window
ended at time 60000. -/
theorem checkRateLimit_window_behaviour_witness :
    (runCalls (0 :: List.replicate 100 0) none).1
      = List.replicate 100 true ++ [false]
    ∧ checkRateLimit 60001 (some ⟨1, 60000⟩) = (true, some ⟨1, 60001 + 60000⟩) :=
  checkRateLimit_window_behaviour 0 60001 (List.replicate 100 0) ⟨1, 60000⟩
    (by simp [RATE_LIMIT_MAX_REQUESTS])
    (by
      intro t ht
      have := List.eq_of_mem_replicate ht
      omega)
    (by decide)

/-- C4: a denied rate-limit check (stored count at or above the ceiling and
window not yet expired) leaves the identity's stored entry exactly as it
was. -/
theorem checkRateLimit_denied_unchanged (now : Nat) (e : RateEntry)
    (hwin : ¬ now > e.resetTime) (hfull : e.count ≥ RATE_LIMIT_MAX_REQUESTS) :
    checkRateLimit now (some e) = (false, some e) := by
  simp only [checkRateLimit]
  rw [if_neg hwin, if_pos hfull]

/-- Witness for C4: a full entry, checked inside its window. -/
theorem checkRateLimit_denied_unchanged_witness :
    checkRateLimit 5 (some ⟨100, 10⟩) = (false, some ⟨100, 10⟩) :=
  checkRateLimit_denied_unchanged 5 ⟨100, 10⟩ (by decide) (by decide)

/- ===== Wire codec: request parsing (server.js, parseHttpRequest) ===== -/

/-- Insertion-ordered association list: the embedding of a JavaScript object
with string keys. -/
def lookupA {β : Type} : List (String × β) → String → Option β
  | [], _ => none
  | (k, v) :: rest, key => if k = key then some v else lookupA rest key

/-- Parsed query parameters: an ordered string-to-string mapping. -/
abbrev QueryMap := List (String × String)

/-- Verdict lookup `query[key]`. -/
def qLookup : QueryMap → String → Option String
  | [], _ => none
  | (k, v) :: rest, key => if k = key then some v else qLookup rest key

/-- JavaScript `obj[k] = v` on an object with string keys: replaces the value
in place when the key exists, appends the pair otherwise. -/
def qUpsert : QueryMap → String → String → QueryMap
  | [], k, v => [(k, v)]
  | (k0, v0) :: rest, k, v =>
    if k0 = k then (k0, v) :: rest else (k0, v0) :: qUpsert rest k v

/-- Value stored for one query pair: a missing `=` and an empty value both
give the empty string, a non-empty value is percent-decoded
(`value ? decodeURIComponent(value) : ''`). -/
def decodedValue (v : Option String) : Option String :=
  match v with
  | none => some ""
  | some s => if s = "" then some "" else percentDecode s

/-- One iteration of the query-parameter loop in `parseHttpRequest`: split
the parameter on `=`, skip it when the key is empty, otherwise store the
decoded key/value pair; `none` models a thrown `URIError`. -/
def applyParam (m : QueryMap) (p : String) : Option QueryMap :=
  match jsSplit "=" p with
  | [] => some m
  | key :: restParts =>
    if key = "" then some m
    else
      match percentDecode key, decodedValue restParts.head? with
      | some dk, some dv => some (qUpsert m dk dv)
      | _, _ => none

/-- The whole query-parameter loop. -/
def parseParams : List String → QueryMap → Option QueryMap
  | [], m => some m
  | p :: rest, m =>
    match applyParam m p with
    | some m1 => parseParams rest m1
    | none => none

/-- Query-string parsing step of `parseHttpRequest`: `&`-separated pairs,
skipped entirely when the query string is empty. -/
def parseQueryString (qs : String) : Option QueryMap :=
  if qs = "" then some [] else parseParams (jsSplit "&" qs) []

/-- Parsed headers: lowercased names mapped to ordered value sequences. -/
abbrev HeadersMap := List (String × List String)

/-- `headers[name].push(value)`, creating the array on first use. -/
def hAppend : HeadersMap → String → String → HeadersMap
  | [], k, v => [(k, [v])]
  | (k0, vs) :: rest, k, v =>
    if k0 = k then (k0, vs ++ [v]) :: rest else (k0, vs) :: hAppend rest k v

/-- One header line of the parsing loop: a line whose first `:` sits at a
positive index contributes its (trimmed, lowercased) name and trimmed value;
any other line is skipped. -/
def addHeaderLine (hs : HeadersMap) (line : String) : HeadersMap :=
  match jsIndexOf line ':' with
  | some colonIndex =>
    if colonIndex > 0 then
      hAppend hs (jsToLower (jsTrim (strTake line colonIndex)))
        (jsTrim (strDrop line (colonIndex + 1)))
    else hs
  | none => hs

/-- Header/body loop of `parseHttpRequest`: header lines accumulate until the
first empty line, the lines strictly after it are the body lines. -/
def scanHeaders : List String → HeadersMap → HeadersMap × List String
  | [], hs => (hs, [])
  | line :: rest, hs =>
    if line = "" then (hs, rest) else scanHeaders rest (addHeaderLine hs line)

/-- Result of `parseHttpRequest`. -/
structure ParsedRequest where
  method : String
  path : String
  fullPath : String
  query : QueryMap
  version : String
  headers : HeadersMap
  body : String
deriving DecidableEq

/-- Processing of the request line and the remaining lines, after the split
on `\r\n` (the tail of `parseHttpRequest` from server.js). -/
def parseRequestLine (requestLine : String) (rest : List String) : Except String ParsedRequest :=
  if requestLine = "" then .error "Invalid request: missing request line"
  else
    match jsSplit " " requestLine with
    | [method, fullPath, version] =>
      let queryIndex := jsIndexOf fullPath '?'
      let path :=
        match queryIndex with
        | some i => strTake fullPath i
        | none => fullPath
      let queryString :=
        match queryIndex with
        | some i => strDrop fullPath (i + 1)
        | none => ""
      match parseQueryString queryString with
      | none => .error "URI malformed"
      | some query =>
        let hb := scanHeaders rest []
        .ok ⟨method, path, fullPath, query, version, hb.1, jsJoin "\r\n" hb.2⟩
    | parts => .error ("Invalid request line: expected 3 parts, got " ++ toString parts.length)

/-- `parseHttpRequest(rawRequest)` from server.js (the non-string input case
of the JavaScript guard cannot arise in the embedding; the empty-input case
is the same guard's falsy-string half). -/
def parseHttpRequest (rawRequest : String) : Except String ParsedRequest :=
  if rawRequest = "" then .error "Invalid request: empty or non-string input"
  else
    match jsSplit "\r\n" rawRequest with
    | [] => .error "Invalid request: no lines found"
    | requestLine :: rest => parseRequestLine requestLine rest

theorem parseRequestLine_ok (l : String) (rest : List String) (p : ParsedRequest)
    (h : parseRequestLine l rest = .ok p) :
    l ≠ "" ∧ jsSplit " " l = [p.method, p.fullPath, p.version]
      ∧ p.headers = (scanHeaders rest []).1
      ∧ p.body = jsJoin "\r\n" (scanHeaders rest []).2 := by
  unfold parseRequestLine at h
  split at h
  · exact absurd h (by simp)
  next hl =>
    split at h
    next method fullPath version hparts =>
      dsimp only at h
      split at h
      · exact absurd h (by simp)
      next query hq =>
        cases h
        exact ⟨hl, by simpa using hparts, rfl, rfl⟩
    all_goals exact absurd h (by simp)

theorem parseHttpRequest_ok_destruct (raw : String) (p : ParsedRequest)
    (h : parseHttpRequest raw = .ok p) :
    raw ≠ "" ∧ ∃ l0 rest, jsSplit "\r\n" raw = l0 :: rest ∧ parseRequestLine l0 rest = .ok p := by
  unfold parseHttpRequest at h
  split at h
  · exact absurd h (by simp)
  next hraw =>
    refine ⟨hraw, ?_⟩
    split at h
    · exact absurd h (by simp)
    next l0 rest hsplit => exact ⟨l0, rest, hsplit, h⟩

/-- C7 counterexample: the raw request `"GET / \r\n\r\n"` has a request line
of exactly three space-separated tokens whose third token (the protocol
version) is empty, and `parseHttpRequest` succeeds on it — so parsing does
not fail whenever method, path or version would be empty. -/
theorem parseHttpRequest_accepts_empty_version :
    parseHttpRequest "GET / \r\n\r\n"
      = .ok ⟨"GET", "/", "/", [], "", [], ""⟩ := by rfl

/-- C7 (amended): request parsing succeeds only when the raw text is
nonempty, its first `\r\n`-line is nonempty, and that line splits on single
spaces into exactly three tokens, which become the method, the full path and
the version; the three tokens themselves are not validated and may be empty
strings. -/
theorem parseHttpRequest_request_line_tokens (raw : String) (p : ParsedRequest)
    (h : parseHttpRequest raw = .ok p) :
    raw ≠ "" ∧ ∃ l0 rest, jsSplit "\r\n" raw = l0 :: rest ∧ l0 ≠ "" ∧
      jsSplit " " l0 = [p.method, p.fullPath, p.version] := by
  obtain ⟨hraw, l0, rest, hsplit, hrl⟩ := parseHttpRequest_ok_destruct raw p h
  obtain ⟨hl, htoks, -, -⟩ := parseRequestLine_ok l0 rest p hrl
  exact ⟨hraw, l0, rest, hsplit, hl, htoks⟩

/-- Witness for the amended C7 at a concrete well-formed request. -/
theorem parseHttpRequest_request_line_tokens_witness :
    ("GET /a HTTP/1.1\r\n\r\n" : String) ≠ "" ∧
    ∃ l0 rest, jsSplit "\r\n" "GET /a HTTP/1.1\r\n\r\n" = l0 :: rest ∧ l0 ≠ "" ∧
      jsSplit " " l0 = [(ParsedRequest.mk "GET" "/a" "/a" [] "HTTP/1.1" [] "").method,
        (ParsedRequest.mk "GET" "/a" "/a" [] "HTTP/1.1" [] "").fullPath,
        (ParsedRequest.mk "GET" "/a" "/a" [] "HTTP/1.1" [] "").version] :=
  parseHttpRequest_request_line_tokens "GET /a HTTP/1.1\r\n\r\n"
    (ParsedRequest.mk "GET" "/a" "/a" [] "HTTP/1.1" [] "") (by rfl)

theorem scanHeaders_body (rest : List String) (hs : HeadersMap) :
    (scanHeaders rest hs).2 = (rest.dropWhile (fun l => !(l == ""))).drop 1 := by
  induction rest generalizing hs with
  | nil => simp [scanHeaders]
  | cons line rest ih =>
    by_cases hl : line = ""
    · subst hl; simp [scanHeaders]
    · simp [scanHeaders, hl, ih]

/-- C8: whenever parsing succeeds and the line sequence after the request
line contains an empty line, the parsed body is exactly the lines strictly
after the first empty line, rejoined with `\r\n`, verbatim (and the empty
string when nothing follows that empty line). -/
theorem parseHttpRequest_body_verbatim (raw l0 : String) (rest : List String) (p : ParsedRequest)
    (h : parseHttpRequest raw = .ok p)
    (hsplit : jsSplit "\r\n" raw = l0 :: rest)
    (_hempty : "" ∈ rest) :
    p.body = jsJoin "\r\n" ((rest.dropWhile (fun l => !(l == ""))).drop 1) := by
  obtain ⟨-, l1, rest1, hsplit1, hrl⟩ := parseHttpRequest_ok_destruct raw p h
  rw [hsplit] at hsplit1
  injection hsplit1 with h1 h2
  subst h1 h2
  obtain ⟨-, -, -, hbody⟩ := parseRequestLine_ok l0 rest p hrl
  rw [hbody, scanHeaders_body]

/-- Witness for C8 on a request whose body contains an embedded blank line. -/
theorem parseHttpRequest_body_verbatim_witness :
    (ParsedRequest.mk "GET" "/" "/" [] "HTTP/1.1" [("h", ["v"])] "line1\r\n\r\nline2").body
      = jsJoin "\r\n" ((["h: v", "", "line1", "", "line2"].dropWhile (fun l => !(l == ""))).drop 1) :=
  parseHttpRequest_body_verbatim "GET / HTTP/1.1\r\nh: v\r\n\r\nline1\r\n\r\nline2"
    "GET / HTTP/1.1" ["h: v", "", "line1", "", "line2"]
    (ParsedRequest.mk "GET" "/" "/" [] "HTTP/1.1" [("h", ["v"])] "line1\r\n\r\nline2")
    (by rfl) (by rfl) (by decide)

/- ===== C9: query mapping semantics ===== -/

/-- Binding contributed by one query parameter for a given decoded key:
the text before the first `=` is the raw key (pairs with an empty raw key
are dropped), the stored value is the empty string when no `=` or an empty
value follows, and the percent-decoded value otherwise. -/
def paramBinding (p key : String) : Option String :=
  match jsSplit "=" p with
  | [] => none
  | rawKey :: restParts =>
    if rawKey = "" then none
    else
      match percentDecode rawKey, decodedValue restParts.head? with
      | some dk, some dv => if dk = key then some dv else none
      | _, _ => none

/-- Last binding for a key over a parameter list: the binding of the last
parameter whose decoded key matches (later parameters win). -/
def lastBinding (ps : List String) (key : String) : Option String :=
  match ps with
  | [] => none
  | p :: rest =>
    match lastBinding rest key with
    | some v => some v
    | none => paramBinding p key

theorem qLookup_upsert (m : QueryMap) (k key v : String) :
    qLookup (qUpsert m k v) key = if k = key then some v else qLookup m key := by
  induction m with
  | nil => simp [qUpsert, qLookup]
  | cons kv rest ih =>
    obtain ⟨k0, v0⟩ := kv
    by_cases h0 : k0 = k
    · subst h0
      by_cases hk : k0 = key <;> simp [qUpsert, qLookup, hk]
    · have hupd : qUpsert ((k0, v0) :: rest) k v = (k0, v0) :: qUpsert rest k v := by
        simp [qUpsert, h0]
      rw [hupd]
      by_cases hk : k0 = key
      · have hkney : ¬ k = key := fun he => h0 (hk.trans he.symm)
        simp [qLookup, hk, hkney]
      · simp [qLookup, hk, ih]

theorem applyParam_lookup (m0 m1 : QueryMap) (p key : String)
    (h : applyParam m0 p = some m1) :
    qLookup m1 key =
      match paramBinding p key with
      | some v => some v
      | none => qLookup m0 key := by
  unfold applyParam at h
  unfold paramBinding
  split at h
  next hsplit =>
    cases h
    simp
  next rawKey restParts hsplit =>
    split at h
    next hk =>
      cases h
      simp [hk]
    next hk =>
      rw [if_neg hk]
      split at h
      next dk dv hdk hdv =>
        cases h
        rw [qLookup_upsert]
        by_cases hdkey : dk = key <;> simp [hdkey]
      all_goals exact absurd h (by simp)

theorem parseParams_lookup (ps : List String) (m0 m : QueryMap) (key : String)
    (h : parseParams ps m0 = some m) :
    qLookup m key =
      match lastBinding ps key with
      | some v => some v
      | none => qLookup m0 key := by
  induction ps generalizing m0 with
  | nil =>
    unfold parseParams at h
    cases h
    simp [lastBinding]
  | cons p rest ih =>
    unfold parseParams at h
    split at h
    next m1 hm1 =>
      have hcons : lastBinding (p :: rest) key =
          match lastBinding rest key with
          | some v => some v
          | none => paramBinding p key := rfl
      rw [ih m1 h, applyParam_lookup m0 m1 p key hm1, hcons]
      cases hlb : lastBinding rest key <;> simp [hlb]
    next hm1 => exact absurd h (by simp)

/-- C9: for a successfully parsed query string, lookup of any key in the
resulting mapping equals the binding of the last `&`-separated parameter
with that (decoded) key — later occurrences win — where a parameter without
`=` binds its key to the empty string and a parameter with an empty raw key
is dropped from the mapping. -/
theorem parseQueryString_last_wins (qs : String) (m : QueryMap) (key : String)
    (h : parseQueryString qs = some m) :
    qLookup m key = lastBinding (if qs = "" then [] else jsSplit "&" qs) key := by
  unfold parseQueryString at h
  by_cases hqs : qs = ""
  · rw [if_pos hqs] at h ⊢
    cases h
    simp [qLookup, lastBinding]
  · rw [if_neg hqs] at h ⊢
    rw [parseParams_lookup (jsSplit "&" qs) [] m key h]
    cases hlb : lastBinding (jsSplit "&" qs) key <;> simp [hlb, qLookup]

/-- Witness for C9 on a query string with a duplicate key (`a`), a pair
without `=` (`b`), a pair with an empty key (`=z`, dropped) and a pair with
an empty value (`c=`). -/
theorem parseQueryString_last_wins_witness :
    qLookup [("a", "2"), ("b", ""), ("c", "")] "a"
      = lastBinding (if ("a=1&a=2&b&=z&c=" : String) = "" then []
          else jsSplit "&" "a=1&a=2&b&=z&c=") "a" :=
  parseQueryString_last_wins "a=1&a=2&b&=z&c=" [("a", "2"), ("b", ""), ("c", "")] "a" (by rfl)

/- ===== JSON values and JSON.stringify ===== -/

/-- JSON values (JavaScript numbers restricted to the integers the embedded
code produces). -/
inductive Json where
  | null
  | bool (b : Bool)
  | num (n : Int)
  | str (s : String)
  | arr (elems : List Json)
  | obj (fields : List (String × Json))

/-- `JSON.stringify(v)` (compact form, no spacing). -/
def Json.stringifyC : Json → String
  | .null => "null"
  | .bool true => "true"
  | .bool false => "false"
  | .num n => toString n
  | .str s => jsonQuote s
  | .arr xs =>
    "[" ++ jsJoin "," (xs.attach.map (fun x => Json.stringifyC x.1)) ++ "]"
  | .obj fs =>
    "\x7b" ++ jsJoin ","
      (fs.attach.map (fun kv => jsonQuote kv.1.1 ++ ":" ++ Json.stringifyC kv.1.2)) ++ "\x7d"
decreasing_by
  · have := List.sizeOf_lt_of_mem x.2
    simp at *
    omega
  · have := List.sizeOf_lt_of_mem kv.2
    obtain ⟨⟨a, b⟩, hm⟩ := kv
    simp at *
    omega

/-- Indentation of `2 * d` spaces. -/
def indentOf (d : Nat) : String :=
  String.mk (List.replicate (2 * d) ' ')

/-- `JSON.stringify(v, null, 2)` at nesting depth `d`. -/
def Json.stringifyP (d : Nat) : Json → String
  | .null => "null"
  | .bool true => "true"
  | .bool false => "false"
  | .num n => toString n
  | .str s => jsonQuote s
  | .arr xs =>
    if xs.isEmpty then "[]"
    else
      "[\n" ++ jsJoin ",\n"
          (xs.attach.map (fun x => indentOf (d + 1) ++ Json.stringifyP (d + 1) x.1))
        ++ "\n" ++ indentOf d ++ "]"
  | .obj fs =>
    if fs.isEmpty then "\x7b\x7d"
    else
      "\x7b\n" ++ jsJoin ",\n"
          (fs.attach.map (fun kv =>
            indentOf (d + 1) ++ jsonQuote kv.1.1 ++ ": " ++ Json.stringifyP (d + 1) kv.1.2))
        ++ "\n" ++ indentOf d ++ "\x7d"
termination_by j => sizeOf j
decreasing_by
  · have := List.sizeOf_lt_of_mem x.2
    simp at *
    omega
  · have := List.sizeOf_lt_of_mem kv.2
    obtain ⟨⟨a, b⟩, hm⟩ := kv
    simp at *
    omega

/- ===== Wire codec: response serialization (server.js, formatHttpResponse)
   and error envelopes (createErrorResponse) ===== -/

/-- Header value as supplied by the delegate: a single string or an array
(`Array.isArray(values) ? values : [values]`). -/
inductive HeaderVal where
  | one (s : String)
  | many (vs : List String)

/-- The array form of a header value. -/
def HeaderVal.toList : HeaderVal → List String
  | .one s => [s]
  | .many vs => vs

/-- Response body: a string (emitted verbatim) or any other JSON value
(serialized with `JSON.stringify`); `none` models null/undefined. -/
inductive BodyVal where
  | str (s : String)
  | jsonVal (j : Json)

/-- `preamble` of a response envelope; `none` fields model absent ones. -/
structure Preamble where
  version : Option String := none
  status : Option Nat := none
  reason : Option String := none

/-- A structured response envelope as consumed by `formatHttpResponse`. -/
structure ResponseJson where
  preamble : Option Preamble := none
  headers : List (String × HeaderVal) := []
  body : Option BodyVal := none

/-- JavaScript truthiness of an optional string (absent and empty are
falsy). -/
def optStrTruthy : Option String → Bool
  | none => false
  | some s => !(s == "")

/-- JavaScript truthiness of an optional number (absent and zero are
falsy). -/
def optNatTruthy : Option Nat → Bool
  | none => false
  | some n => !(n == 0)

/-- The guard `preamble && preamble.version && preamble.status &&
preamble.reason` of `formatHttpResponse`. -/
def preambleTruthy : Option Preamble → Bool
  | none => false
  | some pr => optStrTruthy pr.version && optNatTruthy pr.status && optStrTruthy pr.reason

/-- `part.charAt(0).toUpperCase() + part.slice(1)`. -/
def capitalizePart (s : String) : String :=
  match s.data with
  | [] => ""
  | c :: rest => String.mk (c.toUpper :: rest)

/-- Canonical capitalization of a (lowercased) header name. -/
def properHeaderName (name : String) : String :=
  jsJoin "-" ((jsSplit "-" name).map capitalizePart)

/-- `normalizedHeaders[lowerName].push(...valueArray)` with creation on
first use: appends the values under the key, keeping first-insertion
order. -/
def hUpsertMany : HeadersMap → String → List String → HeadersMap
  | [], k, vs => [(k, vs)]
  | (k0, vs0) :: rest, k, vs =>
    if k0 = k then (k0, vs0 ++ vs) :: rest else (k0, vs0) :: hUpsertMany rest k vs

/-- `formatHttpResponse(responseJson)` from server.js: validates the
preamble, normalizes header names case-insensitively, serializes the body,
adds `Content-Length` when absent and the body is non-empty, and joins
status line, header lines, a blank line and the body with `\r\n`.  The
`none` input models the non-object guard; a `.error` result models the
thrown exception. -/
def formatHttpResponse (responseJson : Option ResponseJson) : Except String String :=
  match responseJson with
  | none => .error "Invalid response: not an object"
  | some rj =>
    if preambleTruthy rj.preamble then
      let pr := rj.preamble.getD {}
      let statusLine :=
        pr.version.getD "" ++ " " ++ toString (pr.status.getD 0) ++ " " ++ pr.reason.getD ""
      let normalizedHeaders := rj.headers.foldl
        (fun acc nv => hUpsertMany acc (jsToLower nv.1) nv.2.toList) []
      let headerLines := normalizedHeaders.foldl
        (fun acc nv => acc ++ nv.2.map (fun v => properHeaderName nv.1 ++ ": " ++ v)) []
      let bodyString :=
        match rj.body with
        | none => ""
        | some (.str s) => s
        | some (.jsonVal j) => Json.stringifyC j
      let headerLines2 :=
        if (lookupA normalizedHeaders "content-length").isNone ∧ bodyString ≠ "" then
          headerLines ++ ["Content-Length: " ++ toString (utf8Length bodyString)]
        else headerLines
      .ok (jsJoin "\r\n" ([statusLine] ++ headerLines2 ++ ["", bodyString]))
    else .error "Invalid response: missing or incomplete preamble"

/-- The `statusReasons` table of `createErrorResponse`. -/
def statusReason (status : Nat) : Option String :=
  if status = 400 then some "Bad Request"
  else if status = 401 then some "Unauthorized"
  else if status = 403 then some "Forbidden"
  else if status = 404 then some "Not Found"
  else if status = 405 then some "Method Not Allowed"
  else if status = 408 then some "Request Timeout"
  else if status = 413 then some "Payload Too Large"
  else if status = 429 then some "Too Many Requests"
  else if status = 500 then some "Internal Server Error"
  else if status = 501 then some "Not Implemented"
  else if status = 503 then some "Service Unavailable"
  else if status = 504 then some "Gateway Timeout"
  else none

/-- `createErrorResponse(status, message)` from server.js; every call site in
the source leaves `includeDetails` at its default `false`, so the timestamp
branch never contributes to the body. -/
def createErrorResponse (status : Nat) (message : String) : ResponseJson :=
  let reason := (statusReason status).getD "Error"
  { preamble := some { version := some "HTTP/1.1", status := some status, reason := some reason }
    headers := [("Content-Type", HeaderVal.many ["application/json"])]
    body := some (.jsonVal (Json.obj [("error", .str reason), ("message", .str message)])) }

/- ===== Request processing pipeline (server.js, processRequest) ===== -/

/-- `MAX_PROMPT_SIZE`: 5MB ceiling on the prompt handed to the delegate. -/
def MAX_PROMPT_SIZE : Nat := 5 * 1024 * 1024

/-- `MAX_CONCURRENT_REQUESTS`: ceiling on concurrently processed requests. -/
def MAX_CONCURRENT_REQUESTS : Nat := 10

/-- `JSON.stringify(parsed.headers, null, 2)` specialized to the shape of a
parsed header map (an object whose values are arrays of strings), written
with structural recursion so concrete prompts evaluate in the kernel. -/
def stringifyArrValues (vs : List String) : String :=
  match vs with
  | [] => "[]"
  | _ => "[\n" ++ jsJoin ",\n" (vs.map (fun v => "    " ++ jsonQuote v)) ++ "\n  ]"

/-- `JSON.stringify(parsed.headers, null, 2)`. -/
def stringifyHeadersPretty (hs : HeadersMap) : String :=
  match hs with
  | [] => "\x7b\x7d"
  | _ =>
    "\x7b\n" ++ jsJoin ",\n"
        (hs.map (fun nv => "  " ++ jsonQuote nv.1 ++ ": " ++ stringifyArrValues nv.2))
      ++ "\n\x7d"

/-- The `requestDescription` template literal of processRequest. -/
def requestDescription (p : ParsedRequest) : String :=
  jsTrim ("\n" ++ p.method ++ " " ++ p.path ++ " " ++ p.version ++ "\n"
    ++ jsJoin "\n" (p.headers.map (fun nv => jsJoin "\n" (nv.2.map (fun v => nv.1 ++ ": " ++ v))))
    ++ "\n\n" ++ p.body ++ "\n")

/-- The `prompt` template literal of processRequest (`requestContext.ip` is
never interpolated; request id and timestamp are the two dynamic inputs). -/
def buildPrompt (requestId timestamp : String) (p : ParsedRequest) : String :=
  "Process this HTTP/1.1 request and generate an appropriate response:\n\n## Raw Request\n```\n"
  ++ requestDescription p
  ++ "\n```\n\n## Structured Request Context\n- **Request ID**: " ++ requestId
  ++ "\n- **Method**: " ++ p.method
  ++ "\n- **Path**: " ++ p.path
  ++ "\n- **Timestamp**: " ++ timestamp
  ++ "\n- **Headers**: " ++ stringifyHeadersPretty p.headers
  ++ "\n"
  ++ (if p.body ≠ "" then
        "- **Body**: " ++ (if p.body.length > 200 then strTake p.body 200 ++ "..." else p.body)
      else "")
  ++ "\n\nRemember to respond with the JSON format specified in your instructions."

/-- Outcome of the delegation to the external decision-maker, abstracting
the Claude query stream together with `extractJsonResponse` at the exact
boundary where processRequest consumes it. -/
inductive DelegateOutcome where
  | jsonOutcome (rj : ResponseJson)
  | timeout
  | responseTooLarge
  | budgetExceeded
  | maxTurnsExceeded
  | thrown (msg : String)

/-- The outer `catch` clause of processRequest: parse errors (message
containing `Invalid request`) become a 400 envelope, everything else a
generic 500 envelope. -/
def catchResponse (msg : String) : Except String String :=
  if containsSubstr msg "Invalid request" then
    formatHttpResponse (some (createErrorResponse 400 "Malformed HTTP request"))
  else
    formatHttpResponse (some (createErrorResponse 500 "Internal server error"))

/-- Body of processRequest after the concurrency counter has been
incremented (the `try` block): returns the wire response (`.error` models an
exception escaping processRequest, which no reachable path produces) and
whether the delegate query was started. -/
def processAdmitted (raw rid ts : String) (o : DelegateOutcome) : Except String String × Bool :=
  match parseHttpRequest raw with
  | .error e => (catchResponse e, false)
  | .ok parsed =>
    let prompt := buildPrompt rid ts parsed
    if prompt.length > MAX_PROMPT_SIZE then
      (formatHttpResponse (some (createErrorResponse 413 "Request data too large for processing")),
       false)
    else
      match o with
      | .jsonOutcome rj =>
        (match formatHttpResponse (some rj) with
         | .ok s => .ok s
         | .error e => catchResponse e,
         true)
      | .timeout =>
        (formatHttpResponse (some (createErrorResponse 504 "Gateway timeout")), true)
      | .responseTooLarge =>
        (formatHttpResponse (some (createErrorResponse 500 "Response too large")), true)
      | .budgetExceeded =>
        (formatHttpResponse (some (createErrorResponse 503 "Service budget exceeded")), true)
      | .maxTurnsExceeded =>
        (formatHttpResponse (some (createErrorResponse 500 "Request too complex")), true)
      | .thrown msg => (catchResponse msg, true)

/-- Observable effects of one `processRequest(rawRequest, requestId,
clientIp)` call: the returned wire bytes, the concurrency counter after the
call, the highest value the counter held during the call, and whether the
delegate query was started. -/
structure ProcOutput where
  response : Except String String
  finalCount : Nat
  peakCount : Nat
  invokedDelegate : Bool

/-- `processRequest` from server.js, with the concurrency counter made an
explicit input: below the ceiling the counter is incremented, the `try`
block runs, and the `finally` clause decrements it on every exit path, so
the peak during the call is `concurrentRequests + 1` and the final value is
the initial one; at or above the ceiling the function returns the 503
envelope before touching the counter. -/
def processRequest (concurrentRequests : Nat) (raw rid ts : String) (o : DelegateOutcome) :
    ProcOutput :=
  if concurrentRequests ≥ MAX_CONCURRENT_REQUESTS then
    ⟨formatHttpResponse (some (createErrorResponse 503 "Server busy, please try again later")),
     concurrentRequests, concurrentRequests, false⟩
  else
    let r := processAdmitted raw rid ts o
    ⟨r.1, concurrentRequests, concurrentRequests + 1, r.2⟩

/-- C2: an envelope whose preamble misses (or has a falsy) version, status
or reason is rejected by the serializer with an error instead of wire
bytes, and the request pipeline, having received such an envelope from the
delegate, replies with the serialization of the generic 500 envelope. -/
theorem formatHttpResponse_rejects_incomplete_preamble
    (rj : ResponseJson) (cur : Nat) (raw rid ts : String) (p : ParsedRequest)
    (hbad : preambleTruthy rj.preamble = false)
    (hcur : cur < MAX_CONCURRENT_REQUESTS)
    (hparse : parseHttpRequest raw = .ok p)
    (hprompt : ¬ (buildPrompt rid ts p).length > MAX_PROMPT_SIZE) :
    formatHttpResponse (some rj) = .error "Invalid response: missing or incomplete preamble"
    ∧ (processRequest cur raw rid ts (.jsonOutcome rj)).response
        = formatHttpResponse (some (createErrorResponse 500 "Internal server error")) := by
  have h1 : formatHttpResponse (some rj)
      = .error "Invalid response: missing or incomplete preamble" := by
    unfold formatHttpResponse
    dsimp only
    rw [hbad]
    simp
  refine ⟨h1, ?_⟩
  unfold processRequest
  rw [if_neg (by omega)]
  unfold processAdmitted
  rw [hparse]
  dsimp only
  rw [if_neg hprompt, h1]
  dsimp only
  unfold catchResponse
  rw [if_neg (by decide)]

set_option maxRecDepth 40000 in
/-- Witness for C2: an envelope missing `preamble.status`, fed to the
pipeline below capacity with a well-formed tiny request. -/
theorem formatHttpResponse_rejects_incomplete_preamble_witness :
    formatHttpResponse (some (ResponseJson.mk
        (some (Preamble.mk (some "HTTP/1.1") none (some "OK"))) [] none))
      = .error "Invalid response: missing or incomplete preamble"
    ∧ (processRequest 0 "GET / HTTP/1.1\r\n\r\n" "req_1" "t"
        (.jsonOutcome (ResponseJson.mk
          (some (Preamble.mk (some "HTTP/1.1") none (some "OK"))) [] none))).response
        = formatHttpResponse (some (createErrorResponse 500 "Internal server error")) :=
  formatHttpResponse_rejects_incomplete_preamble
    (ResponseJson.mk (some (Preamble.mk (some "HTTP/1.1") none (some "OK"))) [] none)
    0 "GET / HTTP/1.1\r\n\r\n" "req_1" "t"
    (ParsedRequest.mk "GET" "/" "/" [] "HTTP/1.1" [] "")
    (by rfl) (by decide) (by rfl) (by decide)

/-- C5: when the concurrency count is at (or above) the ceiling,
processRequest returns the serialized 503 ServiceUnavailable envelope,
never starts the delegate query, and leaves the concurrency count
unchanged; the second conjunct records that the substituted envelope indeed
carries status 503 / Service Unavailable. -/
theorem processRequest_at_capacity (cur : Nat) (raw rid ts : String) (o : DelegateOutcome)
    (h : cur ≥ MAX_CONCURRENT_REQUESTS) :
    processRequest cur raw rid ts o =
      ⟨formatHttpResponse (some (createErrorResponse 503 "Server busy, please try again later")),
       cur, cur, false⟩
    ∧ (createErrorResponse 503 "Server busy, please try again later").preamble
        = some (Preamble.mk (some "HTTP/1.1") (some 503) (some "Service Unavailable")) := by
  constructor
  · unfold processRequest
    rw [if_pos h]
  · rfl

/-- Witness for C5 at the exact ceiling. -/
theorem processRequest_at_capacity_witness :
    processRequest 10 "" "" "" .timeout =
      ⟨formatHttpResponse (some (createErrorResponse 503 "Server busy, please try again later")),
       10, 10, false⟩
    ∧ (createErrorResponse 503 "Server busy, please try again later").preamble
        = some (Preamble.mk (some "HTTP/1.1") (some 503) (some "Service Unavailable")) :=
  processRequest_at_capacity 10 "" "" "" .timeout (by decide)

/-- C6: on every path — rejection at the ceiling, parse error, prompt-size
abort, delegate timeout, oversized response, delegate failure or normal
completion — the concurrency count after processRequest equals the count
before it, and when the request is admitted the count peaks at exactly one
above its prior value, never exceeding the ceiling. -/
theorem processRequest_counter_balanced (cur : Nat) (raw rid ts : String) (o : DelegateOutcome) :
    (processRequest cur raw rid ts o).finalCount = cur
    ∧ (cur < MAX_CONCURRENT_REQUESTS →
        (processRequest cur raw rid ts o).peakCount = cur + 1
        ∧ cur + 1 ≤ MAX_CONCURRENT_REQUESTS)
    ∧ (cur ≥ MAX_CONCURRENT_REQUESTS →
        (processRequest cur raw rid ts o).peakCount = cur) := by
  unfold processRequest
  by_cases h : cur ≥ MAX_CONCURRENT_REQUESTS
  · rw [if_pos h]
    exact ⟨rfl, fun hlt => absurd h (by omega), fun _ => rfl⟩
  · rw [if_neg h]
    exact ⟨rfl, fun _ => ⟨rfl, by omega⟩, fun hge => absurd hge h⟩

/-- Witness for C6 on an admitted request. -/
theorem processRequest_counter_balanced_witness :
    (processRequest 3 "GET / HTTP/1.1\r\n\r\n" "r" "t" .timeout).finalCount = 3
    ∧ (processRequest 3 "GET / HTTP/1.1\r\n\r\n" "r" "t" .timeout).peakCount = 4 :=
  ⟨(processRequest_counter_balanced 3 "GET / HTTP/1.1\r\n\r\n" "r" "t" .timeout).1,
   ((processRequest_counter_balanced 3 "GET / HTTP/1.1\r\n\r\n" "r" "t" .timeout).2.1
      (by decide)).1⟩

/- ===== Sandbox path validator (tools.js, validateAndResolvePath) ===== -/

/-- POSIX path-segment normalization for absolute paths: empty and `.`
segments vanish, `..` pops the previous segment (and vanishes at the
root) — the segment discipline shared by Node's `path.normalize` and
`path.resolve`. -/
def normSegs (segs : List String) : List String :=
  segs.foldl
    (fun acc seg =>
      if seg = "" ∨ seg = "." then acc
      else if seg = ".." then acc.dropLast
      else acc ++ [seg]) []

/-- Node `path.normalize` on an absolute POSIX path. -/
def posixNormalize (s : String) : String :=
  "/" ++ jsJoin "/" (normSegs (jsSplit "/" s))

/-- Node `path.resolve(base, rel)` with `base` absolute and `rel` relative —
the only call shape the source uses — POSIX flavour. -/
def posixResolve (base rel : String) : String :=
  "/" ++ jsJoin "/" (normSegs (jsSplit "/" base ++ jsSplit "/" rel))

/-- Node `path.dirname` on a normalized absolute POSIX path. -/
def posixDirname (s : String) : String :=
  "/" ++ jsJoin "/" (((jsSplit "/" s).filter (fun seg => !(seg == ""))).dropLast)

/-- Result of one `fs.realpath` call: the canonical path, a missing-entry
error (`ENOENT`), or another filesystem error carrying its message. -/
inductive FsResult where
  | found (real : String)
  | enoent
  | failure (msg : String)

/-- `validateAndResolvePath(filepath)` from tools.js (POSIX flavour), with
the behaviour of `fs.realpath` passed in as `realpath` and the configured
storage root as `storageDir`; the module constants
`SAFE_BASE_DIR_ORIGINAL = path.normalize(FILE_STORAGE_DIR)` and
`SAFE_BASE_DIR` (its lowercase form) are computed from it exactly as in the
source.  In the missing-target branch, the denial thrown when the parent's
real path fails the root check is itself caught by the surrounding
`catch (parentError)`, so both parent-directory denials surface with the
`does not exist` message, as in the source. -/
def validateAndResolvePath (realpath : String → FsResult) (storageDir : String)
    (filepath : String) : Except String String :=
  let safeBaseDirOriginal := posixNormalize storageDir
  let safeBaseDir := jsToLower safeBaseDirOriginal
  if jsStartsWith filepath "/" then .error "Access denied: Absolute paths not allowed"
  else if filepath.data.contains (Char.ofNat 0) then .error "Access denied: Null bytes in path"
  else if jsEndsWith filepath "/" ∨ jsEndsWith filepath "\\" then
    .error "Access denied: Path cannot end with separator"
  else
    let resolvedPath := posixResolve safeBaseDirOriginal filepath
    let normalizedPath := posixNormalize resolvedPath
    if !(jsStartsWith (jsToLower normalizedPath) safeBaseDir) then
      .error "Access denied: Path is outside allowed directory"
    else
      match realpath normalizedPath with
      | .found realPath =>
        if !(jsStartsWith (jsToLower realPath) safeBaseDir) then
          .error "Access denied: Symlink points outside allowed directory"
        else .ok realPath
      | .failure msg => .error msg
      | .enoent =>
        match realpath (posixDirname normalizedPath) with
        | .found realParentPath =>
          if !(jsStartsWith (jsToLower realParentPath) safeBaseDir) then
            .error "Access denied: Parent directory does not exist"
          else .ok normalizedPath
        | _ => .error "Access denied: Parent directory does not exist"

/-- Does the relative path contain a `..` segment? -/
def hasDotDotSegment (p : String) : Bool :=
  (jsSplit "/" p).contains ".."

/-- Actual directory containment: is `p` the root itself or strictly below
it?  This is the notion of "inside the configured root" the claim asserts,
as opposed to the plain string test the code performs. -/
def pathInsideRoot (root p : String) : Bool :=
  p == root || jsStartsWith p (root ++ "/")

/-- The identity filesystem: every path exists and is its own canonical
form (no symbolic links anywhere). -/
def idRealpath : String → FsResult := fun p => .found p

/-- C1 fails on the code: with storage root `/srv/files` and a filesystem
without symlinks, the relative path `../files2/x` contains a `..` segment
and resolves to `/srv/files2/x`, which is outside the root — yet
`validateAndResolvePath` grants access to it, because `/srv/files2/x`
extends the root as a plain string and the check is `startsWith` with no
separator appended. -/
theorem validateAndResolvePath_prefix_escape :
    hasDotDotSegment "../files2/x" = true
    ∧ posixResolve (posixNormalize "/srv/files") "../files2/x" = "/srv/files2/x"
    ∧ pathInsideRoot (posixNormalize "/srv/files") "/srv/files2/x" = false
    ∧ validateAndResolvePath idRealpath "/srv/files" "../files2/x" = .ok "/srv/files2/x" :=
  ⟨rfl, rfl, rfl, rfl⟩

/- ===== Statement-execution tool (tools.js, sqliteTool) ===== -/

/-- `MAX_QUERY_SIZE`: 1MB ceiling on the SQL text. -/
def MAX_QUERY_SIZE : Nat := 1 * 1024 * 1024

/-- Leading-whitespace skip (`\s*` in the source's regular expressions). -/
def dropWs (cs : List Char) : List Char :=
  cs.dropWhile isJsWs

/-- Case-insensitive literal match returning the unmatched rest. -/
def stripCI : List Char → List Char → Option (List Char)
  | [], rest => some rest
  | _ :: _, [] => none
  | k :: ks, c :: rest => if c.toLower = k.toLower then stripCI ks rest else none

/-- Test of `/^\s*KW\s+/i`: optional whitespace, the keyword
case-insensitively, then at least one whitespace character. -/
def matchKeywordWs (kw : String) (s : String) : Bool :=
  match stripCI kw.data (dropWs s.data) with
  | some (c :: _) => isJsWs c
  | _ => false

/-- First alternative of a regex alternation that matches a leading literal
(the five PRAGMA names start with distinct letters, so at most one can
match). -/
def matchAnyName (names : List String) (cs : List Char) : Option (List Char) :=
  match names with
  | [] => none
  | n :: rest =>
    match stripCI n.data cs with
    | some r => some r
    | none => matchAnyName rest cs

/-- Test of the read-only PRAGMA pattern
`/^\s*PRAGMA\s+(table_info|index_list|foreign_key_list|database_list|compile_options)\s*\(/i`. -/
def matchPragma (s : String) : Bool :=
  match stripCI "pragma".data (dropWs s.data) with
  | some (c :: rest) =>
    if isJsWs c then
      match matchAnyName
          ["table_info", "index_list", "foreign_key_list", "database_list", "compile_options"]
          (dropWs rest) with
      | some r =>
        match dropWs r with
        | '(' :: _ => true
        | _ => false
      | none => false
    else false
  | _ => false

/-- Does `SELECT` (case-insensitive) followed by a whitespace character
start here? -/
def startsSelectWs (cs : List Char) : Bool :=
  match stripCI "select".data cs with
  | some (c :: _) => isJsWs c
  | _ => false

/-- Is there a whitespace character immediately followed by `SELECT` and
another whitespace somewhere in the list (the `\s+SELECT\s+` tail of the
CTE pattern, with `.*` absorbing everything before it)? -/
def hasWsSelectWs : List Char → Bool
  | [] => false
  | c :: rest => (isJsWs c && startsSelectWs rest) || hasWsSelectWs rest

/-- Test of the CTE pattern `/^\s*WITH\s+.*\s+SELECT\s+/is`. -/
def matchWithSelect (s : String) : Bool :=
  match stripCI "with".data (dropWs s.data) with
  | some (c :: rest) => isJsWs c && hasWsSelectWs rest
  | _ => false

/-- `isReadOnlyQuery(sqlQuery)` from tools.js: the trimmed query matched
against the `READONLY_SQL_PATTERNS` allow-list. -/
def isReadOnlyQuery (sqlQuery : String) : Bool :=
  let trimmed := jsTrim sqlQuery
  matchKeywordWs "select" trimmed || matchKeywordWs "explain" trimmed
    || matchPragma trimmed || matchWithSelect trimmed

/-- A prepared statement of the underlying engine: running it in `all` or
`run` mode either yields rows / `(changes, lastInsertRowid)` or raises an
engine error with a message. -/
structure PreparedStmt where
  all : List Json → Except String (List Json)
  run : List Json → Except String (Nat × Int)

/-- The underlying database engine (better-sqlite3), abstracted at the
`prepare` boundary the tool uses. -/
structure SqlEngine where
  prepare : String → Except String PreparedStmt

/-- Result handed back by a tool: the serialized text payload
(`JSON.stringify(payload, null, 2)`) and the `isError` flag. -/
structure ToolResult where
  text : String
  isError : Bool

/-- The generic error payload `{success:false, error:"Database error"}`. -/
def sqliteErrorPayload : Json :=
  Json.obj [("success", .bool false), ("error", .str "Database error")]

/-- Did the computation raise? -/
def exceptIsError {ε α : Type} : Except ε α → Bool
  | .error _ => true
  | .ok _ => false

/-- The `sqlite` tool handler from tools.js, given the engine and the call
arguments.  The schema-cache refresh after DDL statements only updates a
log-side cache (its own failures are caught inside `loadDatabaseSchema`)
and cannot alter the returned payload, so it is not part of the model; the
query-size guard throws into the same `catch`, which is why an oversized
query also yields the generic payload. -/
def sqliteTool (db : SqlEngine) (sqlQuery : String) (params : List Json) : ToolResult :=
  if sqlQuery.length > MAX_QUERY_SIZE then ⟨Json.stringifyP 0 sqliteErrorPayload, true⟩
  else
    match db.prepare sqlQuery with
    | .error _ => ⟨Json.stringifyP 0 sqliteErrorPayload, true⟩
    | .ok stmt =>
      if isReadOnlyQuery sqlQuery then
        match stmt.all params with
        | .error _ => ⟨Json.stringifyP 0 sqliteErrorPayload, true⟩
        | .ok rows =>
          ⟨Json.stringifyP 0 (Json.obj [("success", .bool true), ("rows", .arr rows),
            ("rowCount", .num (Int.ofNat rows.length))]), false⟩
      else
        match stmt.run params with
        | .error _ => ⟨Json.stringifyP 0 sqliteErrorPayload, true⟩
        | .ok cr =>
          ⟨Json.stringifyP 0 (Json.obj [("success", .bool true),
            ("changes", .num (Int.ofNat cr.1)), ("lastInsertRowid", .num cr.2)]), false⟩

/-- C10: whenever the underlying engine raises — during `prepare` or during
execution in either mode — the tool's payload is exactly the serialization
of `{success:false, error:"Database error"}` with the error flag set; in
particular no text from the engine's own error reaches the caller. -/
theorem sqliteTool_engine_error_opaque (db : SqlEngine) (q : String) (ps : List Json)
    (h : exceptIsError (db.prepare q) = true
         ∨ ∃ stmt, db.prepare q = .ok stmt
             ∧ (if isReadOnlyQuery q then exceptIsError (stmt.all ps) = true
                else exceptIsError (stmt.run ps) = true)) :
    sqliteTool db q ps = ⟨Json.stringifyP 0 sqliteErrorPayload, true⟩ := by
  unfold sqliteTool
  by_cases hsz : q.length > MAX_QUERY_SIZE
  · rw [if_pos hsz]
  · rw [if_neg hsz]
    rcases h with herr | ⟨stmt, hok, hex⟩
    · cases hp : db.prepare q with
      | error e => rfl
      | ok stmt =>
        rw [hp] at herr
        simp [exceptIsError] at herr
    · rw [hok]
      dsimp only
      by_cases hro : isReadOnlyQuery q = true
      · rw [if_pos hro] at hex
        rw [if_pos hro]
        cases ha : stmt.all ps with
        | error e => rfl
        | ok rows =>
          rw [ha] at hex
          simp [exceptIsError] at hex
      · rw [if_neg hro] at hex
        rw [if_neg hro]
        cases hr : stmt.run ps with
        | error e => rfl
        | ok cr =>
          rw [hr] at hex
          simp [exceptIsError] at hex

/-- Witness for C10: an engine whose `prepare` raises. -/
theorem sqliteTool_engine_error_opaque_witness :
    sqliteTool ⟨fun _ => .error "SQLITE_ERROR: no such table: nope"⟩ "SELECT * FROM nope" []
      = ⟨Json.stringifyP 0 sqliteErrorPayload, true⟩ :=
  sqliteTool_engine_error_opaque ⟨fun _ => .error "SQLITE_ERROR: no such table: nope"⟩
    "SELECT * FROM nope" [] (Or.inl rfl)

end Apoc
